import Mathlib

/-!
Verification of the brew-dashboard temperature/state engine.

The development shallowly embeds the JavaScript sources of the repository:

* JS numbers are modelled as rationals (`ℚ`).  All arithmetic appearing in
  the embedded code paths is exact on one-decimal values, so the rational
  model agrees with IEEE doubles on every value the engine manipulates.
* Timestamps (epoch milliseconds) are modelled as integers (`ℤ`).
* JS strings are modelled as lists of UTF-16 code units (`List ℕ`).
* Host functions that the repository merely calls (JS `Date` parsing and
  `Number` parsing) are modelled as oracle inputs: the parsed start/end
  timestamps and the parsed manual temperature are fields of the input
  record, carried next to the raw strings.
* `Math.cos` is transcendental, so the eased target temperature is real
  valued.  The target computation is embedded as a real-valued function
  (`targetReal`), while the rest of the bucket update, which is rational,
  takes the target as a rational argument; theorems link the two.
-/

namespace BrewDash

-- The Batteries rational arithmetic operations are marked irreducible, which
-- blocks elaboration-time evaluation of concrete runs of the engine; restore
-- the default reducibility inside this development so that `decide` works.
attribute [local semireducible] Rat.add Rat.mul Rat.sub Rat.inv

/-- JS helper from src/api/public.js: clamp(x, a, b) = Math.max(a, Math.min(b, x)). -/
def jsClamp (x a b : ℚ) : ℚ := max a (min b x)

/-- JS Math.round (half toward positive infinity): Math.round(x) = ⌊x + 1/2⌋. -/
def jround (x : ℚ) : ℤ := ⌊x + 1/2⌋

/-- round1 from src/api/public.js: Math.round(x * 10) / 10. -/
def round1 (x : ℚ) : ℚ := (jround (x * 10) : ℚ) / 10

/-- UTF-16 code units of a (ASCII) Lean string, the model of a JS string. -/
def strCodes (s : String) : List ℕ := s.toList.map Char.toNat

/-- Decimal digits of a natural number, least significant first (fuel-indexed
structural recursion; fuel n+1 always suffices). -/
def natDigitsRev (fuel n : ℕ) : List ℕ :=
  match fuel with
  | 0 => []
  | f + 1 => if n < 10 then [n] else n % 10 :: natDigitsRev f (n / 10)

/-- Decimal digit code units of a natural number, as JS renders it. -/
def natCodes (n : ℕ) : List ℕ := (natDigitsRev (n + 1) n).reverse.map (· + 48)

/-- Decimal rendering of a JS integer-valued number (template-literal interpolation). -/
def intCodes (n : ℤ) : List ℕ :=
  if n < 0 then 45 :: natCodes n.natAbs else natCodes n.natAbs

/-- Decimal rendering of a JS number that is an integer multiple of 1/10
(the engine only interpolates `round1` outputs into seed strings, and those
are exactly the one-decimal rationals).  Integral values print without a
decimal point, exactly as JS template literals render them. -/
def oneDecCodes (q : ℚ) : List ℕ :=
  if q.den = 1 then intCodes q.num
  else
    let k := (q * 10).num
    let n := k.natAbs
    (if k < 0 then [45] else []) ++ natCodes (n / 10) ++ [46] ++ natCodes (n % 10)

/-- hash32 from src/api/public.js: 32-bit FNV-1a over the code units, with
JS int32 semantics (xor and Math.imul are bit operations mod 2^32, and the
final `h >>> 0` reinterprets the accumulator as an unsigned 32-bit value). -/
def hash32 (codes : List ℕ) : ℕ :=
  codes.foldl (fun h c => ((h ^^^ c) * 16777619) % 4294967296) 2166136261

/-- One step of the xorshift32 generator from rngFromSeed in src/api/public.js,
with uint32 semantics (x << k is multiplication mod 2^32, x >>> k is division). -/
def xsFirst (seed : ℕ) : ℕ :=
  let x0 := seed % 4294967296
  let x1 := x0 ^^^ (x0 * 8192 % 4294967296)
  let x2 := x1 ^^^ (x1 / 131072)
  x2 ^^^ (x2 * 32 % 4294967296)

/-- The first output of rngFromSeed(seed): (x >>> 0) / 4294967296 ∈ [0,1). -/
def randQ (seed : ℕ) : ℚ := (xsFirst seed : ℚ) / 4294967296

/-- SETPOINT_MIN from src/api/public.js. -/
def SETPOINT_MIN : ℚ := 182/10
/-- SETPOINT_MAX from src/api/public.js. -/
def SETPOINT_MAX : ℚ := 199/10
/-- FINAL_MIN from src/api/public.js. -/
def FINAL_MIN : ℚ := 4
/-- FINAL_MAX from src/api/public.js. -/
def FINAL_MAX : ℚ := 5
/-- COOL_WINDOW_MS from src/api/public.js: 10 days in milliseconds. -/
def COOL_WINDOW_MS : ℤ := 10 * 86400000
/-- TEMP_BUCKET_MS from src/api/public.js: 60 second buckets. -/
def TEMP_BUCKET_MS : ℤ := 60000

/-- makeStableSetpoint from src/api/public.js: seeded hash over
salt, purpose tag, tank id and start string, mapped to the 0.1 grid of
[18.2, 19.9].  (In JS, steps = Math.round((19.9 - 18.2) / 0.1) = 17.) -/
def makeStableSetpoint (salt id startStr : List ℕ) : ℚ :=
  let seed := hash32 (salt ++ strCodes "|sp|" ++ id ++ strCodes "|" ++ startStr)
  let steps : ℤ := jround ((SETPOINT_MAX - SETPOINT_MIN) / (1/10))
  let idx : ℤ := ⌊randQ seed * (steps + 1)⌋
  let t : ℚ := SETPOINT_MIN + idx * (1/10)
  jsClamp (round1 t) SETPOINT_MIN SETPOINT_MAX

/-- makeStableFinal from src/api/public.js: seeded hash over salt, purpose
tag, tank id and end string, mapped to the 0.1 grid of [4.0, 5.0]. -/
def makeStableFinal (salt id endStr : List ℕ) : ℚ :=
  let seed := hash32 (salt ++ strCodes "|final|" ++ id ++ strCodes "|" ++ endStr)
  let steps : ℤ := jround ((FINAL_MAX - FINAL_MIN) / (1/10))
  let idx : ℤ := ⌊randQ seed * (steps + 1)⌋
  let t : ℚ := FINAL_MIN + idx * (1/10)
  jsClamp (round1 t) FINAL_MIN FINAL_MAX

/-- The per-tank persisted temperature state of src/api/public.js
(fields setpoint, finalT, cur, lastBucket).  The JS code treats a missing
hash entry, unparseable JSON and a non-numeric `cur` alike (it falls into
the initialization branch); all three are modelled as `none` at use sites. -/
structure TempState where
  setpoint : ℚ
  finalT : ℚ
  cur : ℚ
  lastBucket : ℤ
  deriving Repr, DecidableEq

/-- The inputs of computeTempForTank for one tank.  `startMs`, `endMs` and
`tempVal` are the oracle results of the host functions new Date(...).getTime()
and parseTempNumber on the raw strings (`none` models NaN / null).
The record's `status` field is not an input: computeTempForTank in
src/api/public.js never reads row.status. -/
structure TankInput where
  id : List ℕ
  startStr : List ℕ
  endStr : List ℕ
  startMs : Option ℤ
  endMs : Option ℤ
  tempVal : Option ℚ
  deriving Repr, DecidableEq

/-- The `statusOut` values computeTempForTank can produce (src/api/public.js
emits only "fermenting" and "ready"; there is no "cooling" output). -/
inductive StatusOut where
  | fermenting
  | ready
  deriving Repr, DecidableEq

/-- The badgeCN values of src/api/public.js ("发酵中" and "降温中"). -/
inductive Badge where
  | fermentingCN
  | coolingCN
  deriving Repr, DecidableEq

/-- The result of computeTempForTank.  `display` is the numeric one-decimal
value round1(x); the JS tempText is its fixed rendering `${x.toFixed(1)}℃`,
which is injective on one-decimal values, so display equality models
displayed-text equality. -/
structure TempResult where
  display : ℚ
  status : StatusOut
  badge : Badge
  deriving Repr, DecidableEq

/-- coolStartMs from src/api/public.js: Math.max(endMs - COOL_WINDOW_MS,
Number.isFinite(startMs) ? startMs : endMs - COOL_WINDOW_MS). -/
def coolStartOf (startMs : Option ℤ) (endMs : ℤ) : ℤ :=
  max (endMs - COOL_WINDOW_MS) (startMs.getD (endMs - COOL_WINDOW_MS))

/-- The setpoint derivation at the top of computeTempForTank: the parsed
manual temperature clamped into [SETPOINT_MIN, SETPOINT_MAX] when present,
otherwise the stable per-tank setpoint. -/
def derivedSetpoint (salt : List ℕ) (inp : TankInput) : ℚ :=
  match inp.tempVal with
  | some b => jsClamp b SETPOINT_MIN SETPOINT_MAX
  | none => makeStableSetpoint salt inp.id inp.startStr

/-- The step pool selection of src/api/public.js (lines 269-274), keyed on
gap = prev - target. -/
def stepPool (gap : ℚ) : List ℚ :=
  if 6/10 < gap then [-(3/10), -(2/10), -(2/10), -(1/10), -(3/10)]
  else if 3/10 < gap then [-(2/10), -(2/10), -(1/10), -(1/10), 0]
  else if 1/10 < gap then [-(2/10), -(1/10), -(1/10), 0, 1/10]
  else [-(1/10), 0, 0, 1/10, -(1/10)]

/-- The seed string of the per-bucket step draw (src/api/public.js line 264):
`${salt}|step|${id}|${bucket}|${round1(prev)}|${round1(target)}`. -/
def stepSeedCodes (salt id : List ℕ) (bucket : ℤ) (prev target : ℚ) : List ℕ :=
  salt ++ strCodes "|step|" ++ id ++ strCodes "|" ++ intCodes bucket ++
    strCodes "|" ++ oneDecCodes (round1 prev) ++ strCodes "|" ++ oneDecCodes (round1 target)

/-- The bucket-transition update of src/api/public.js (lines 244-289): a
pseudo-random step from the gap-biased pool, hard-clamped to the window
[max(target-0.3, prev-0.3), min(target+0.1, prev+0.1)], then to the display
bounds [FINAL_MIN, SETPOINT_MAX], and finally forced below finalT once past
the end timestamp.  `target` is the rational stand-in for the real-valued
eased target (see `targetReal`). -/
def coolUpdate (salt id : List ℕ) (bucket : ℤ) (prev target finalT : ℚ)
    (pastEnd : Bool) : ℚ :=
  let upperByTarget := target + 1/10
  let lowerByTarget := target - 3/10
  let upperByStep := prev + 1/10
  let lowerByStep := prev - 3/10
  let upper := min upperByTarget upperByStep
  let lower := max lowerByTarget lowerByStep
  let seed := hash32 (stepSeedCodes salt id bucket prev target)
  let gap := prev - target
  let pool := stepPool gap
  let idx : ℕ := (⌊randQ seed * 5⌋).toNat
  let step := pool.getD idx 0
  let next1 := prev + step
  let next2 := jsClamp next1 lower upper
  let next3 := jsClamp next2 FINAL_MIN SETPOINT_MAX
  if pastEnd then min next3 finalT else next3

/-- computeTempForTank from src/api/public.js (lines 172-295), as a pure
function from (salt, tank input, stored state, now, target) to (result,
stored state after the call).  The returned state is the store's content
after the call: it equals the input state on paths that do not call
setTempState.  `target` is the rational stand-in for the real-valued eased
target; it is consulted only on the bucket-transition path. -/
def computeTempForTank (salt : List ℕ) (inp : TankInput) (st0 : Option TempState)
    (now : ℤ) (target : ℚ) : TempResult × Option TempState :=
  let setpoint := derivedSetpoint salt inp
  let finalT := makeStableFinal salt inp.id inp.endStr
  match inp.endMs with
  | none => (⟨round1 setpoint, .fermenting, .fermentingCN⟩, st0)
  | some endMs =>
    let coolStartMs := coolStartOf inp.startMs endMs
    if now < coolStartMs then
      (⟨round1 setpoint, .fermenting, .fermentingCN⟩, st0)
    else
      let bucket := Int.fdiv now TEMP_BUCKET_MS
      match st0 with
      | none =>
        (⟨round1 setpoint, .ready, .coolingCN⟩, some ⟨setpoint, finalT, setpoint, bucket⟩)
      | some st =>
        if st.lastBucket = bucket then
          if endMs ≤ now then
            let forced := min st.cur finalT
            (⟨round1 forced, .ready, .coolingCN⟩, some ⟨setpoint, finalT, forced, st.lastBucket⟩)
          else
            (⟨round1 st.cur, .ready, .coolingCN⟩, st0)
        else
          let next := coolUpdate salt inp.id bucket st.cur target finalT (decide (endMs ≤ now))
          (⟨round1 next, .ready, .coolingCN⟩, some ⟨setpoint, finalT, next, bucket⟩)

/-- cosineEase01 from src/api/public.js: (1 - Math.cos(Math.PI * clamp(t,0,1))) / 2,
real valued because of the cosine. -/
noncomputable def cosineEase01 (t : ℚ) : ℝ :=
  (1 - Real.cos (Real.pi * (jsClamp t 0 1 : ℚ))) / 2

/-- The eased target curve of src/api/public.js (line 209):
setpoint + (finalT - setpoint) * cosineEase01(t01). -/
noncomputable def targetReal (setpoint finalT : ℚ) (t01 : ℚ) : ℝ :=
  (setpoint : ℝ) + ((finalT : ℚ) - setpoint) * cosineEase01 t01

/-- t01 from src/api/public.js (lines 206-207):
(now - coolStart) / Math.max(1, end - coolStart). -/
def t01Of (now coolStartMs endMs : ℤ) : ℚ :=
  ((now - coolStartMs : ℤ) : ℚ) / ((max 1 (endMs - coolStartMs) : ℤ) : ℚ)

theorem jsClamp_of_le_left {x a b : ℚ} (hx : x ≤ a) :
    jsClamp x a b = a := by
  unfold jsClamp
  exact max_eq_left (le_trans (min_le_right _ _) hx)

theorem jsClamp_of_le_right {x a b : ℚ} (hb : b ≤ x) (hab : a ≤ b) :
    jsClamp x a b = b := by
  unfold jsClamp
  rw [min_eq_left hb]
  exact max_eq_right hab

/-- At the start of the cooldown window the eased target is exactly the setpoint. -/
theorem targetReal_zero (sp f : ℚ) : targetReal sp f 0 = sp := by
  unfold targetReal cosineEase01
  rw [jsClamp_of_le_left le_rfl]
  push_cast
  rw [mul_zero, Real.cos_zero]
  ring

/-- From the end timestamp onward (t01 ≥ 1) the eased target is exactly finalT. -/
theorem targetReal_of_one_le {t : ℚ} (sp f : ℚ) (h : 1 ≤ t) :
    targetReal sp f t = f := by
  unfold targetReal cosineEase01
  rw [jsClamp_of_le_right h (by norm_num)]
  push_cast
  rw [mul_one, Real.cos_pi]
  ring

/-- The easing function maps into [0, 1]. -/
theorem cosineEase01_mem (t : ℚ) : 0 ≤ cosineEase01 t ∧ cosineEase01 t ≤ 1 := by
  unfold cosineEase01
  constructor
  · have h := Real.cos_le_one (Real.pi * (jsClamp t 0 1 : ℚ))
    linarith
  · have h := Real.neg_one_le_cos (Real.pi * (jsClamp t 0 1 : ℚ))
    linarith

/-- The eased target always lies between finalT and setpoint. -/
theorem targetReal_mem {sp f : ℚ} (t : ℚ) (h : f ≤ sp) :
    (f : ℝ) ≤ targetReal sp f t ∧ targetReal sp f t ≤ sp := by
  obtain ⟨h0, h1⟩ := cosineEase01_mem t
  unfold targetReal
  have hfs : ((f : ℚ) : ℝ) ≤ ((sp : ℚ) : ℝ) := by exact_mod_cast h
  constructor
  · nlinarith
  · nlinarith

/-- ASCII lower-casing of a code-unit list (String.prototype.toLowerCase on
the ASCII status keywords involved). -/
def toLowerAscii (codes : List ℕ) : List ℕ :=
  codes.map fun c => if 65 ≤ c ∧ c ≤ 90 then c + 32 else c

/-- calcProgress from src/api/load.js and src/api/public.js:
round(clamp((now - s) / (e - s) * 100, 0, 100)), and 0 when either date is
invalid or end ≤ start. -/
def calcProgress (startMs endMs : Option ℤ) (now : ℤ) : ℤ :=
  match startMs, endMs with
  | some s, some e =>
    if e ≤ s then 0
    else jround (jsClamp (((now - s : ℤ) : ℚ) / ((e - s : ℤ) : ℚ) * 100) 0 100)
  | _, _ => 0

/-- READY_THRESHOLD from src/api/load.js. -/
def READY_THRESHOLD : ℤ := 95

/-- The status derivation of src/api/load.js (lines 178-188):
`String(row.status || "auto").toLowerCase()` honoured verbatim for
"fermenting" and "ready" only; otherwise ready iff the end date has passed
or progress reached the threshold.  `statusCodes` is the stringified status
field (with its "auto" default). -/
def loadStatus (statusCodes : List ℕ) (startMs endMs : Option ℤ) (now : ℤ) : StatusOut :=
  let stL := toLowerAscii statusCodes
  if stL = strCodes "fermenting" then .fermenting
  else if stL = strCodes "ready" then .ready
  else
    let expired := match endMs with
      | some e => decide (e ≤ now)
      | none => false
    let progress := calcProgress startMs endMs now
    if expired = true ∨ READY_THRESHOLD ≤ progress then .ready else .fermenting

/-- The three lifecycle phases named by the specification. -/
inductive Phase where
  | fermenting
  | cooling
  | ready
  deriving Repr, DecidableEq

/-- Modelled from the spec (section 4.2), for comparison with the code: an
explicit fermenting/cooling/ready status is returned verbatim; an
unparseable end yields fermenting; otherwise with coolStart = end minus the
cooldown window clamped no earlier than a valid start, now > end is ready,
now ≥ coolStart is cooling, and earlier times are fermenting. -/
def specPhase (statusOverride : Option Phase) (startMs endMs : Option ℤ) (now : ℤ) : Phase :=
  match statusOverride with
  | some p => p
  | none =>
    match endMs with
    | none => .fermenting
    | some e =>
      let coolStart := coolStartOf startMs e
      if e < now then .ready
      else if coolStart ≤ now then .cooling
      else .fermenting

/-! ### JS value model for the sanitizer (src/api/_schema.js) -/

/-- An untyped JS value as delivered by JSON.parse plus the `undefined` that
property access on a missing key produces.  Numbers are the rationals they
denote (JS doubles are modelled by their shortest-decimal denotation, under
which every arithmetic step appearing in the embedded code is exact). -/
inductive JsValue where
  | undefinedV
  | nullV
  | boolV (b : Bool)
  | numV (q : ℚ)
  | strV (s : List ℕ)
  | arrV (elems : List JsValue)
  | objV (fields : List (List ℕ × JsValue))
  deriving Repr

/-- Fractional decimal digits of 0 ≤ r < 1 (code units), fuel-bounded; every
JS double has a finite decimal expansion well below the fuel. -/
def fracCodes (fuel : ℕ) (r : ℚ) : List ℕ :=
  match fuel with
  | 0 => []
  | f + 1 =>
    if r = 0 then []
    else
      let d := ⌊r * 10⌋
      (d.toNat + 48) :: fracCodes f (r * 10 - d)

/-- Decimal rendering of a JS number (String(n) / template interpolation). -/
def numCodes (q : ℚ) : List ℕ :=
  let a := |q|
  let ip := ⌊a⌋.toNat
  let fr := a - ⌊a⌋
  (if q < 0 then [45] else []) ++ natCodes ip ++
    (if fr = 0 then [] else 46 :: fracCodes 1100 fr)

/-- JS ToBoolean (truthiness). -/
def truthy : JsValue → Bool
  | .undefinedV => false
  | .nullV => false
  | .boolV b => b
  | .numV q => decide (q ≠ 0)
  | .strV s => decide (s ≠ [])
  | .arrV _ => true
  | .objV _ => true

mutual

/-- JS String(v).  Arrays stringify as the comma-join of their elements with
null/undefined elements rendered empty; plain objects as "[object Object]". -/
def jsToString : JsValue → List ℕ
  | .undefinedV => strCodes "undefined"
  | .nullV => strCodes "null"
  | .boolV true => strCodes "true"
  | .boolV false => strCodes "false"
  | .numV q => numCodes q
  | .strV s => s
  | .arrV l => jsArrJoin l
  | .objV _ => strCodes "[object Object]"

/-- Array.prototype.join(",") over stringified elements. -/
def jsArrJoin : List JsValue → List ℕ
  | [] => []
  | [x] => jsArrElem x
  | x :: xs => jsArrElem x ++ [44] ++ jsArrJoin xs

/-- One array element inside join: null and undefined render empty. -/
def jsArrElem : JsValue → List ℕ
  | .undefinedV => []
  | .nullV => []
  | v => jsToString v

end

/-- safeStr from src/api/_schema.js: fallback on undefined/null, String(v)
otherwise. -/
def safeStr (v : JsValue) (fallback : List ℕ) : List ℕ :=
  match v with
  | .undefinedV => fallback
  | .nullV => fallback
  | v => jsToString v

/-- JS property access v[k]: on plain objects the (last) binding for the key,
undefined otherwise (primitives and arrays have none of the record fields). -/
def getField (v : JsValue) (k : List ℕ) : JsValue :=
  match v with
  | .objV l => l.foldl (fun acc p => if p.1 = k then p.2 else acc) .undefinedV
  | _ => .undefinedV

/-- The canonical tank record produced by normalizeRow (src/api/_schema.js). -/
structure Row where
  «show» : Bool
  beer : List ℕ
  style : List ℕ
  abv : List ℕ
  ibu : List ℕ
  capacity : List ℕ
  temp : List ℕ
  start : List ℕ
  endStr : List ℕ
  status : List ℕ
  limited : Bool
  deriving Repr, DecidableEq

/-- normalizeRow from src/api/_schema.js (lines 8-23). -/
def normalizeRow (row : JsValue) : Row :=
  let r := if truthy row then row else .objV []
  { «show» := truthy (getField r (strCodes "show"))
    beer := safeStr (getField r (strCodes "beer")) []
    style := safeStr (getField r (strCodes "style")) []
    abv := safeStr (getField r (strCodes "abv")) []
    ibu := safeStr (getField r (strCodes "ibu")) []
    capacity := safeStr (getField r (strCodes "capacity")) (strCodes "150L")
    temp := safeStr (getField r (strCodes "temp")) []
    start := safeStr (getField r (strCodes "start")) []
    endStr := safeStr (getField r (strCodes "end")) []
    status := safeStr (getField r (strCodes "status")) (strCodes "auto")
    limited := truthy (getField r (strCodes "limited")) }

/-- Digit code-unit test (0-9). -/
def isDigitCode (c : ℕ) : Bool := decide (48 ≤ c) && decide (c ≤ 57)

/-- The tank id pattern /^F\d+$/i of src/api/_schema.js. -/
def matchesTankId : List ℕ → Bool
  | [] => false
  | c :: rest => (decide (c = 70) || decide (c = 102)) && !rest.isEmpty && rest.all isDigitCode

/-- ASCII upper-casing of a code-unit list (String.prototype.toUpperCase on
the tank ids involved, which are ASCII). -/
def toUpperAscii (codes : List ℕ) : List ℕ :=
  codes.map fun c => if 97 ≤ c ∧ c ≤ 122 then c - 32 else c

/-- typeof v === "object" (for non-null values: arrays and plain objects). -/
def isObjectType : JsValue → Bool
  | .arrV _ => true
  | .objV _ => true
  | .nullV => true
  | _ => false

/-- Object.entries of the sanitizer input.  For arrays the entries are the
index keys.  (JS additionally fronts integer-like keys of plain objects;
such keys never match the tank pattern and do not advance the acceptance
counter, so the accepted output is unaffected and insertion order is kept.) -/
def entriesOf : JsValue → List (List ℕ × JsValue)
  | .objV l => l
  | .arrV l => l.enum.map fun p => (natCodes p.1, p.2)
  | _ => []

/-- MAX_TANKS from src/api/_schema.js. -/
def MAX_TANKS : ℕ := 300

/-- out[key] = value with JS object semantics: an existing key keeps its
position, a fresh key is appended. -/
def assocSet : List (List ℕ × Row) → List ℕ → Row → List (List ℕ × Row)
  | [], k, v => [(k, v)]
  | (k0, v0) :: rest, k, v =>
    if k0 = k then (k0, v) :: rest else (k0, v0) :: assocSet rest k v

/-- The entry loop of sanitizeState: stop at the cap, skip keys that do not
match the tank pattern, store the normalized row under the uppercased key. -/
def sanitizeGo : List (List ℕ × JsValue) → List (List ℕ × Row) → ℕ → List (List ℕ × Row)
  | [], out, _ => out
  | (k, row) :: rest, out, count =>
    if MAX_TANKS ≤ count then out
    else if matchesTankId k then
      sanitizeGo rest (assocSet out (toUpperAscii k) (normalizeRow row)) (count + 1)
    else sanitizeGo rest out count

/-- sanitizeState from src/api/_schema.js (lines 25-41). -/
def sanitizeState (v : JsValue) : List (List ℕ × Row) :=
  let input := if truthy v && isObjectType v then v else .objV []
  sanitizeGo (entriesOf input) [] 0

/-! ### The public read pipeline (src/api/public.js module.exports) -/

/-- tankNoFromId from src/api/public.js: the number of /^F(\d+)$/i, else the
first digit run anywhere in the id, else 0. -/
def digitsVal (l : List ℕ) : ℕ := l.foldl (fun a c => a * 10 + (c - 48)) 0

/-- The first maximal run of digit code units (the /\d+/ match). -/
def firstDigitRun (l : List ℕ) : List ℕ :=
  (l.dropWhile fun c => !isDigitCode c).takeWhile isDigitCode

/-- tankNoFromId from src/api/public.js (lines 44-49). -/
def tankNoFromId (id : List ℕ) : ℕ :=
  match id with
  | [] => 0
  | c :: rest =>
    if (decide (c = 70) || decide (c = 102)) && !rest.isEmpty && rest.all isDigitCode then
      digitsVal rest
    else
      let r := firstDigitRun (c :: rest)
      if r.isEmpty then 0 else digitsVal r

/-- daysSince from src/api/public.js (lines 111-118), on the parsed start. -/
def daysSince (startMs : Option ℤ) (now : ℤ) : Option ℤ :=
  match startMs with
  | none => none
  | some s => if now - s < 0 then some 0 else some ((now - s).fdiv 86400000 + 1)

/-- The host-function oracle for one read request: JS Date parsing, JS manual
temperature parsing, and the per-tank rational stand-in for the real-valued
eased target (consulted only on bucket-transition updates). -/
structure HostOracle where
  parseDate : List ℕ → Option ℤ
  parseTemp : List ℕ → Option ℚ
  target : List ℕ → ℚ

/-- The TankInput assembled for one sanitized record. -/
def rowInput (o : HostOracle) (id : List ℕ) (r : Row) : TankInput :=
  { id := id, startStr := r.start, endStr := r.endStr,
    startMs := o.parseDate r.start, endMs := o.parseDate r.endStr,
    tempVal := o.parseTemp r.temp }

/-- An item of the public response (the fields the verified claims are about;
the remaining fields of src/api/public.js are cosmetic text projections of
the same row). -/
structure PubItem where
  id : List ℕ
  no : ℕ
  display : ℚ
  status : StatusOut
  badge : Badge
  progress : ℤ
  day : Option ℤ
  deriving Repr, DecidableEq

/-- The per-tank loop of the handler: each visible tank is processed with
the temperature store threaded through (hget/hset on the state hash). -/
def buildItems (o : HostOracle) (salt : List ℕ) (now : ℤ) :
    List (List ℕ × Row) → (List ℕ → Option TempState) →
    List PubItem × (List ℕ → Option TempState)
  | [], ts => ([], ts)
  | (id, r) :: rest, ts =>
    let inp := rowInput o id r
    let pair := computeTempForTank salt inp (ts id) now (o.target id)
    let ts1 : List ℕ → Option TempState := fun k => if k = id then pair.2 else ts k
    let res := buildItems o salt now rest ts1
    ({ id := id, no := tankNoFromId id, display := pair.1.display,
       status := pair.1.status, badge := pair.1.badge,
       progress := calcProgress (o.parseDate r.start) (o.parseDate r.endStr) now,
       day := daysSince (o.parseDate r.start) now } :: res.1, res.2)

/-- Stable ascending insertion by tank number (the handler's sort). -/
def insertByNo (x : List ℕ × Row) : List (List ℕ × Row) → List (List ℕ × Row)
  | [] => [x]
  | y :: ys =>
    if tankNoFromId x.1 < tankNoFromId y.1 then x :: y :: ys
    else y :: insertByNo x ys

/-- Sort of the visible entries by tank number. -/
def sortByNo (l : List (List ℕ × Row)) : List (List ℕ × Row) :=
  l.foldr insertByNo []

/-- The public response shape: ok plus the item list. -/
structure PubResponse where
  ok : Bool
  items : List PubItem

/-- The public read handler of src/api/public.js (lines 297-364) as a state
transformer on the temperature store.  `raw` models the record key: `none`
is an absent key, `some none` a present value that JSON.parse rejects (the
catch substitutes an empty object), `some (some v)` a parsed value. -/
def publicHandler (o : HostOracle) (salt : List ℕ) (now : ℤ)
    (raw : Option (Option JsValue)) (ts : List ℕ → Option TempState) :
    PubResponse × (List ℕ → Option TempState) :=
  match raw with
  | none => ({ ok := true, items := [] }, ts)
  | some parsed =>
    let obj := parsed.getD (.objV [])
    let cleaned := sanitizeState obj
    let entries := cleaned.filter fun p => p.2.«show» = true
    let sorted := sortByNo entries
    let res := buildItems o salt now sorted ts
    ({ ok := true, items := res.1 }, res.2)

/-! ### The admin write (src/api/save.js) -/

/-- The whole persisted state: the record key and the per-tank temperature
state hash. -/
structure Store where
  records : Option JsValue
  temps : List ℕ → Option TempState

/-- The effect of an authorized save with a parseable JSON body
(src/api/save.js lines 43-54): r.set(KEY, JSON.stringify(obj || {})), with
stringify/parse modelled as the identity on the value model.  Nothing else
is touched. -/
def saveApply (payload : JsValue) (s : Store) : Store :=
  { records := some (if truthy payload then payload else .objV []),
    temps := s.temps }

/-! ### Helper lemmas about the bucket update -/

theorem jsClamp_mem {a b : ℚ} (x : ℚ) (hab : a ≤ b) :
    a ≤ jsClamp x a b ∧ jsClamp x a b ≤ b :=
  ⟨le_max_left a _, max_le hab (min_le_left b x)⟩

theorem getD_mem_or (l : List ℚ) (i : ℕ) (d : ℚ) :
    l.getD i d = d ∨ l.getD i d ∈ l := by
  induction l generalizing i with
  | nil => left; simp
  | cons a t ih =>
    cases i with
    | zero => right; simp
    | succ n =>
      rcases ih n with h | h
      · left; simpa using h
      · right; simp only [List.getD_cons_succ]; exact List.mem_cons_of_mem a h

theorem stepPool_bounds (gap : ℚ) : ∀ x ∈ stepPool gap, -(3/10) ≤ x ∧ x ≤ 1/10 := by
  intro x hx
  unfold stepPool at hx
  split_ifs at hx <;> fin_cases hx <;> norm_num

theorem step_bounds (gap : ℚ) (i : ℕ) :
    -(3/10) ≤ (stepPool gap).getD i 0 ∧ (stepPool gap).getD i 0 ≤ 1/10 := by
  rcases getD_mem_or (stepPool gap) i 0 with h | h
  · rw [h]; norm_num
  · exact stepPool_bounds gap _ h

/-- The bucket update with pastEnd spelled out: a clamp chain around the
pseudo-random step. -/
theorem coolUpdate_eq (salt id : List ℕ) (bucket : ℤ) (prev target finalT : ℚ)
    (pastEnd : Bool) :
    coolUpdate salt id bucket prev target finalT pastEnd =
      (if pastEnd then
        min (jsClamp (jsClamp (prev + (stepPool (prev - target)).getD
              ((⌊randQ (hash32 (stepSeedCodes salt id bucket prev target)) * 5⌋).toNat) 0)
            (max (target - 3/10) (prev - 3/10)) (min (target + 1/10) (prev + 1/10)))
            FINAL_MIN SETPOINT_MAX) finalT
      else
        jsClamp (jsClamp (prev + (stepPool (prev - target)).getD
              ((⌊randQ (hash32 (stepSeedCodes salt id bucket prev target)) * 5⌋).toNat) 0)
            (max (target - 3/10) (prev - 3/10)) (min (target + 1/10) (prev + 1/10)))
            FINAL_MIN SETPOINT_MAX) := by
  cases pastEnd <;> rfl

/-- Past the end timestamp, the bucket update never leaves the current value
above finalT. -/
theorem coolUpdate_pastEnd_le (salt id : List ℕ) (bucket : ℤ)
    (prev target finalT : ℚ) :
    coolUpdate salt id bucket prev target finalT true ≤ finalT := by
  rw [coolUpdate_eq]
  exact min_le_right _ _

/-- Before the end timestamp, the updated value never drops more than 0.3
below a previous value that is within the display bounds. -/
theorem coolUpdate_lower (salt id : List ℕ) (bucket : ℤ)
    (prev target finalT : ℚ) (hp : prev ≤ SETPOINT_MAX) :
    prev - 3/10 ≤ coolUpdate salt id bucket prev target finalT false := by
  rw [coolUpdate_eq]
  simp only [if_neg (Bool.false_ne_true)]
  unfold jsClamp
  refine le_trans (le_min ?_ (le_trans (le_max_right (target - 3/10) (prev - 3/10))
    (le_max_left _ _))) (le_max_right FINAL_MIN _)
  unfold SETPOINT_MAX at hp ⊢
  linarith

/-- Full bound package for a pre-end bucket update whose previous value is in
the display bounds and within 0.4 of the target, which itself is in the
display bounds: the step is at most 0.3 down / 0.1 up, and the result stays
in the display bounds and in the band [target - 0.3, target + 0.1]. -/
theorem coolUpdate_bounds (salt id : List ℕ) (bucket : ℤ)
    (prev target finalT : ℚ)
    (hp1 : FINAL_MIN ≤ prev) (hp2 : prev ≤ SETPOINT_MAX)
    (ht1 : FINAL_MIN ≤ target) (ht2 : target ≤ SETPOINT_MAX)
    (hc1 : target - 2/5 ≤ prev) (hc2 : prev ≤ target + 2/5) :
    prev - 3/10 ≤ coolUpdate salt id bucket prev target finalT false ∧
      coolUpdate salt id bucket prev target finalT false ≤ prev + 1/10 ∧
      FINAL_MIN ≤ coolUpdate salt id bucket prev target finalT false ∧
      coolUpdate salt id bucket prev target finalT false ≤ SETPOINT_MAX ∧
      target - 3/10 ≤ coolUpdate salt id bucket prev target finalT false ∧
      coolUpdate salt id bucket prev target finalT false ≤ target + 1/10 := by
  rw [coolUpdate_eq]
  simp only [if_neg (Bool.false_ne_true)]
  unfold FINAL_MIN SETPOINT_MAX at *
  set x := prev + (stepPool (prev - target)).getD
    ((⌊randQ (hash32 (stepSeedCodes salt id bucket prev target)) * 5⌋).toNat) 0 with hx
  set lo := max (target - 3/10) (prev - 3/10) with hlo
  set hi := min (target + 1/10) (prev + 1/10) with hhi
  have hlohi : lo ≤ hi := by
    rw [hlo, hhi]
    refine max_le (le_min (by linarith) (by linarith)) (le_min (by linarith) (by linarith))
  obtain ⟨h2lo, h2hi⟩ := jsClamp_mem x hlohi
  set n2 := jsClamp x lo hi with hn2
  have hlo_t : target - 3/10 ≤ lo := le_max_left _ _
  have hlo_p : prev - 3/10 ≤ lo := le_max_right _ _
  have hhi_t : hi ≤ target + 1/10 := min_le_left _ _
  have hhi_p : hi ≤ prev + 1/10 := min_le_right _ _
  obtain ⟨h3lo, h3hi⟩ := jsClamp_mem n2 (show (4:ℚ) ≤ 199/10 by norm_num)
  have hn2p1 : prev - 3/10 ≤ n2 := le_trans hlo_p h2lo
  have hn2p2 : n2 ≤ prev + 1/10 := le_trans h2hi hhi_p
  have hn2t1 : target - 3/10 ≤ n2 := le_trans hlo_t h2lo
  have hn2t2 : n2 ≤ target + 1/10 := le_trans h2hi hhi_t
  have hdef : jsClamp n2 4 (199/10) = max 4 (min (199/10) n2) := rfl
  refine ⟨?_, ?_, h3lo, h3hi, ?_, ?_⟩
  · rw [hdef]
    exact le_trans (le_min (by linarith) (by linarith)) (le_max_right _ _)
  · rw [hdef]
    exact max_le (by linarith) (le_trans (min_le_right _ _) (by linarith))
  · rw [hdef]
    exact le_trans (le_min (by linarith) (by linarith)) (le_max_right _ _)
  · rw [hdef]
    exact max_le (by linarith) (le_trans (min_le_right _ _) (by linarith))

/-! ### Branch equations for computeTempForTank -/

theorem compute_endNone (salt : List ℕ) (inp : TankInput) (st0 : Option TempState)
    (now : ℤ) (target : ℚ) (hend : inp.endMs = none) :
    computeTempForTank salt inp st0 now target =
      (⟨round1 (derivedSetpoint salt inp), .fermenting, .fermentingCN⟩, st0) := by
  unfold computeTempForTank
  rw [hend]

theorem compute_notCooling (salt : List ℕ) (inp : TankInput) (st0 : Option TempState)
    (now : ℤ) (target : ℚ) (e : ℤ) (hend : inp.endMs = some e)
    (hcs : now < coolStartOf inp.startMs e) :
    computeTempForTank salt inp st0 now target =
      (⟨round1 (derivedSetpoint salt inp), .fermenting, .fermentingCN⟩, st0) := by
  unfold computeTempForTank
  rw [hend]
  simp only [if_pos hcs]

theorem compute_init (salt : List ℕ) (inp : TankInput)
    (now : ℤ) (target : ℚ) (e : ℤ) (hend : inp.endMs = some e)
    (hcs : coolStartOf inp.startMs e ≤ now) :
    computeTempForTank salt inp none now target =
      (⟨round1 (derivedSetpoint salt inp), .ready, .coolingCN⟩,
        some ⟨derivedSetpoint salt inp, makeStableFinal salt inp.id inp.endStr,
          derivedSetpoint salt inp, Int.fdiv now TEMP_BUCKET_MS⟩) := by
  unfold computeTempForTank
  rw [hend]
  simp only [if_neg (not_lt.mpr hcs)]

theorem compute_sameBucket_pre (salt : List ℕ) (inp : TankInput) (st : TempState)
    (now : ℤ) (target : ℚ) (e : ℤ) (hend : inp.endMs = some e)
    (hcs : coolStartOf inp.startMs e ≤ now)
    (hbk : st.lastBucket = Int.fdiv now TEMP_BUCKET_MS)
    (hpre : ¬ e ≤ now) :
    computeTempForTank salt inp (some st) now target =
      (⟨round1 st.cur, .ready, .coolingCN⟩, some st) := by
  unfold computeTempForTank
  rw [hend]
  simp only [if_neg (not_lt.mpr hcs), if_pos hbk, if_neg hpre]

theorem compute_sameBucket_past (salt : List ℕ) (inp : TankInput) (st : TempState)
    (now : ℤ) (target : ℚ) (e : ℤ) (hend : inp.endMs = some e)
    (hcs : coolStartOf inp.startMs e ≤ now)
    (hbk : st.lastBucket = Int.fdiv now TEMP_BUCKET_MS)
    (hpast : e ≤ now) :
    computeTempForTank salt inp (some st) now target =
      (⟨round1 (min st.cur (makeStableFinal salt inp.id inp.endStr)), .ready, .coolingCN⟩,
        some ⟨derivedSetpoint salt inp, makeStableFinal salt inp.id inp.endStr,
          min st.cur (makeStableFinal salt inp.id inp.endStr), st.lastBucket⟩) := by
  unfold computeTempForTank
  rw [hend]
  simp only [if_neg (not_lt.mpr hcs), if_pos hbk, if_pos hpast]

theorem compute_newBucket (salt : List ℕ) (inp : TankInput) (st : TempState)
    (now : ℤ) (target : ℚ) (e : ℤ) (hend : inp.endMs = some e)
    (hcs : coolStartOf inp.startMs e ≤ now)
    (hbk : st.lastBucket ≠ Int.fdiv now TEMP_BUCKET_MS) :
    computeTempForTank salt inp (some st) now target =
      (⟨round1 (coolUpdate salt inp.id (Int.fdiv now TEMP_BUCKET_MS) st.cur target
          (makeStableFinal salt inp.id inp.endStr) (decide (e ≤ now))), .ready, .coolingCN⟩,
        some ⟨derivedSetpoint salt inp, makeStableFinal salt inp.id inp.endStr,
          coolUpdate salt inp.id (Int.fdiv now TEMP_BUCKET_MS) st.cur target
            (makeStableFinal salt inp.id inp.endStr) (decide (e ≤ now)),
          Int.fdiv now TEMP_BUCKET_MS⟩) := by
  unfold computeTempForTank
  rw [hend]
  simp only [if_neg (not_lt.mpr hcs), if_neg hbk]

/-! ### Helper lemmas about the sanitizer -/

theorem assocSet_length (out : List (List ℕ × Row)) (k : List ℕ) (v : Row) :
    (assocSet out k v).length ≤ out.length + 1 := by
  induction out with
  | nil => simp [assocSet]
  | cons p rest ih =>
    obtain ⟨k0, v0⟩ := p
    unfold assocSet
    split_ifs
    · simp
    · simpa using Nat.succ_le_succ ih

theorem sanitizeGo_length (l : List (List ℕ × JsValue)) :
    ∀ out count, (sanitizeGo l out count).length ≤ out.length + (MAX_TANKS - count) := by
  induction l with
  | nil => intro out count; simp [sanitizeGo]
  | cons p rest ih =>
    intro out count
    obtain ⟨k, row⟩ := p
    unfold sanitizeGo
    split_ifs with hcap hmatch
    · omega
    · have h1 := ih (assocSet out (toUpperAscii k) (normalizeRow row)) (count + 1)
      have h2 := assocSet_length out (toUpperAscii k) (normalizeRow row)
      unfold MAX_TANKS at *
      omega
    · exact ih out count

theorem assocSet_forall {P : List ℕ × Row → Prop} (out : List (List ℕ × Row))
    (k : List ℕ) (v : Row) (hout : ∀ p ∈ out, P p) (hkv : P (k, v)) :
    ∀ p ∈ assocSet out k v, P p := by
  induction out with
  | nil => simpa [assocSet] using hkv
  | cons q rest ih =>
    obtain ⟨k0, v0⟩ := q
    unfold assocSet
    split_ifs with hks
    · intro p hp
      rcases List.mem_cons.mp hp with rfl | hp
      · subst hks; exact hkv
      · exact hout _ (List.mem_cons_of_mem _ hp)
    · intro p hp
      rcases List.mem_cons.mp hp with rfl | hp
      · exact hout _ (List.mem_cons_self _ _)
      · exact ih (fun q hq => hout q (List.mem_cons_of_mem _ hq)) p hp

theorem sanitizeGo_forall {P : List ℕ × Row → Prop} (l : List (List ℕ × JsValue)) :
    ∀ out count, (∀ p ∈ out, P p) →
      (∀ p ∈ l, matchesTankId p.1 = true → P (toUpperAscii p.1, normalizeRow p.2)) →
      ∀ p ∈ sanitizeGo l out count, P p := by
  induction l with
  | nil => intro out count hout _; simpa [sanitizeGo] using hout
  | cons q rest ih =>
    intro out count hout hl
    obtain ⟨k, row⟩ := q
    unfold sanitizeGo
    split_ifs with hcap hmatch
    · exact hout
    · refine ih _ _ ?_ ?_
      · exact assocSet_forall out _ _ hout (hl (k, row) (List.mem_cons_self _ _) hmatch)
      · exact fun p hp => hl p (List.mem_cons_of_mem _ hp)
    · exact ih out count hout fun p hp => hl p (List.mem_cons_of_mem _ hp)

theorem toUpper_digits (l : List ℕ) (h : l.all isDigitCode = true) :
    toUpperAscii l = l := by
  induction l with
  | nil => rfl
  | cons c rest ih =>
    simp only [List.all_cons, Bool.and_eq_true] at h
    obtain ⟨h1, h2⟩ := h
    unfold isDigitCode at h1
    simp only [Bool.and_eq_true, decide_eq_true_eq] at h1
    unfold toUpperAscii at ih ⊢
    simp only [List.map_cons]
    rw [if_neg (by omega), ih h2]

theorem matches_toUpper (k : List ℕ) (h : matchesTankId k = true) :
    matchesTankId (toUpperAscii k) = true ∧ toUpperAscii (toUpperAscii k) = toUpperAscii k := by
  match k with
  | [] => simp [matchesTankId] at h
  | c :: rest =>
    simp only [matchesTankId, Bool.and_eq_true, Bool.or_eq_true, decide_eq_true_eq] at h
    obtain ⟨⟨hc, hne⟩, hdig⟩ := h
    have hup : toUpperAscii (c :: rest) = 70 :: rest := by
      unfold toUpperAscii
      simp only [List.map_cons]
      have : (if 97 ≤ c ∧ c ≤ 122 then c - 32 else c) = 70 := by
        rcases hc with rfl | rfl <;> norm_num
      rw [this]
      have := toUpper_digits rest hdig
      unfold toUpperAscii at this
      rw [this]
    have hni : rest.isEmpty = false := by simpa using hne
    constructor
    · rw [hup]
      simp [matchesTankId, hni, hdig]
    · rw [hup]
      have h2 : toUpperAscii (70 :: rest) = 70 :: rest := by
        unfold toUpperAscii
        simp only [List.map_cons]
        rw [if_neg (by norm_num)]
        have := toUpper_digits rest hdig
        unfold toUpperAscii at this
        rw [this]
      rw [h2]

theorem assocSet_append (out : List (List ℕ × Row)) (k : List ℕ) (v : Row)
    (h : k ∉ out.map Prod.fst) : assocSet out k v = out ++ [(k, v)] := by
  induction out with
  | nil => rfl
  | cons q rest ih =>
    obtain ⟨k0, v0⟩ := q
    simp only [List.map_cons, List.mem_cons] at h
    push_neg at h
    unfold assocSet
    rw [if_neg (by exact fun hk => h.1 hk.symm)]
    simp only [List.cons_append]
    rw [ih h.2]

theorem sanitizeGo_order (l : List (List ℕ × JsValue)) :
    ∀ out count, count ≤ MAX_TANKS →
      (∀ p ∈ l, matchesTankId p.1 = true ∧ toUpperAscii p.1 = p.1) →
      (l.map Prod.fst).Nodup →
      (∀ p ∈ l, p.1 ∉ out.map Prod.fst) →
      sanitizeGo l out count =
        out ++ (l.take (MAX_TANKS - count)).map fun p => (p.1, normalizeRow p.2) := by
  induction l with
  | nil => intro out count _ _ _ _; simp [sanitizeGo]
  | cons q rest ih =>
    intro out count hcap hl hnd hfresh
    obtain ⟨k, row⟩ := q
    unfold sanitizeGo
    obtain ⟨hmatch, hcanon⟩ := hl (k, row) (List.mem_cons_self _ _)
    split_ifs with h300
    · have : MAX_TANKS - count = 0 := by omega
      simp [this]
    · rw [hcanon]
      have hknotin : k ∉ out.map Prod.fst := hfresh (k, row) (List.mem_cons_self _ _)
      rw [assocSet_append out k _ hknotin]
      simp only [List.map_cons, List.nodup_cons] at hnd
      have hrest := ih (out ++ [(k, normalizeRow row)]) (count + 1) (by omega)
        (fun p hp => hl p (List.mem_cons_of_mem _ hp)) hnd.2 ?_
      · rw [hrest]
        have hsub : MAX_TANKS - count = (MAX_TANKS - (count + 1)) + 1 := by omega
        rw [hsub, List.take_succ_cons]
        simp
      · intro p hp
        simp only [List.map_append, List.map_cons, List.map_nil]
        intro hmem
        rcases List.mem_append.mp hmem with hmem | hmem
        · exact hfresh p (List.mem_cons_of_mem _ hp) hmem
        · simp only [List.mem_singleton] at hmem
          exact hnd.1 (hmem ▸ List.mem_map_of_mem Prod.fst hp)

theorem natDigitsRev_lt (f n : ℕ) : ∀ d ∈ natDigitsRev f n, d < 10 := by
  induction f generalizing n with
  | zero => intro d hd; simp [natDigitsRev] at hd
  | succ f ih =>
    intro d hd
    unfold natDigitsRev at hd
    split_ifs at hd with h
    · simp only [List.mem_singleton] at hd; omega
    · rcases List.mem_cons.mp hd with rfl | hd
      · omega
      · exact ih (n / 10) d hd

theorem natDigitsRev_ne_nil (n : ℕ) : natDigitsRev (n + 1) n ≠ [] := by
  unfold natDigitsRev
  split_ifs <;> simp

theorem natCodes_all_digits (n : ℕ) : ∀ c ∈ natCodes n, isDigitCode c = true := by
  intro c hc
  unfold natCodes at hc
  simp only [List.mem_map, List.mem_reverse] at hc
  obtain ⟨d, hd, rfl⟩ := hc
  have := natDigitsRev_lt (n + 1) n d hd
  unfold isDigitCode
  simp only [Bool.and_eq_true, decide_eq_true_eq]
  omega

theorem natCodes_ne_nil (n : ℕ) : natCodes n ≠ [] := by
  unfold natCodes
  simp only [ne_eq, List.map_eq_nil_iff, List.reverse_eq_nil_iff]
  exact natDigitsRev_ne_nil n

theorem matches_natCodes_false (n : ℕ) : matchesTankId (natCodes n) = false := by
  rcases h : natCodes n with _ | ⟨c, rest⟩
  · exact absurd h (natCodes_ne_nil n)
  · have hc : isDigitCode c = true := by
      apply natCodes_all_digits n
      rw [h]; exact List.mem_cons_self _ _
    unfold isDigitCode at hc
    simp only [Bool.and_eq_true, decide_eq_true_eq] at hc
    simp only [matchesTankId, Bool.and_eq_false_iff, Bool.or_eq_false_iff,
      decide_eq_false_iff_not]
    left; left
    omega

theorem sanitizeGo_skip_all (l : List (List ℕ × JsValue)) :
    ∀ out count, (∀ p ∈ l, matchesTankId p.1 = false) →
      sanitizeGo l out count = out := by
  induction l with
  | nil => intro out count _; rfl
  | cons q rest ih =>
    intro out count hl
    obtain ⟨k, row⟩ := q
    unfold sanitizeGo
    have hk : matchesTankId k = false := hl (k, row) (List.mem_cons_self _ _)
    split_ifs with hcap hmatch
    · rfl
    · rw [hk] at hmatch; exact absurd hmatch (by simp)
    · exact ih out count fun p hp => hl p (List.mem_cons_of_mem _ hp)

theorem buildItems_length (o : HostOracle) (salt : List ℕ) (now : ℤ) :
    ∀ (l : List (List ℕ × Row)) ts, (buildItems o salt now l ts).1.length = l.length := by
  intro l
  induction l with
  | nil => intro ts; rfl
  | cons p rest ih =>
    intro ts
    obtain ⟨id, r⟩ := p
    unfold buildItems
    simp only [List.length_cons]
    rw [ih]

/-! ### Claim theorems -/

/-- C3: when the record carries no parseable manual temperature, the derived
setpoint is a pure deterministic function of (salt, tank id, start string)
with value in [18.2, 19.9], and finalTemp is a pure deterministic function
of (salt, tank id, end string) with value in [4.0, 5.0]; two calls with the
same inputs return the same values (the derivations depend on nothing but
those inputs); when a manual temperature is present, the setpoint equals
that value clamped into [18.2, 19.9]. -/
theorem C3_stable_targets :
    (∀ salt id startStr, SETPOINT_MIN ≤ makeStableSetpoint salt id startStr ∧
        makeStableSetpoint salt id startStr ≤ SETPOINT_MAX) ∧
    (∀ salt id endStr, FINAL_MIN ≤ makeStableFinal salt id endStr ∧
        makeStableFinal salt id endStr ≤ FINAL_MAX) ∧
    (∀ salt (inp inp' : TankInput), inp.tempVal = none → inp'.tempVal = none →
        inp.id = inp'.id → inp.startStr = inp'.startStr →
        derivedSetpoint salt inp = derivedSetpoint salt inp') ∧
    (∀ salt (inp inp' : TankInput), inp.id = inp'.id → inp.endStr = inp'.endStr →
        makeStableFinal salt inp.id inp.endStr = makeStableFinal salt inp'.id inp'.endStr) ∧
    (∀ salt (inp : TankInput) b, inp.tempVal = some b →
        derivedSetpoint salt inp = jsClamp b SETPOINT_MIN SETPOINT_MAX) := by
  refine ⟨?_, ?_, ?_, ?_, ?_⟩
  · intro salt id startStr
    exact jsClamp_mem _ (by norm_num [SETPOINT_MIN, SETPOINT_MAX])
  · intro salt id endStr
    exact jsClamp_mem _ (by norm_num [FINAL_MIN, FINAL_MAX])
  · intro salt inp inp' h1 h2 h3 h4
    simp [derivedSetpoint, h1, h2, h3, h4]
  · intro salt inp inp' h1 h2
    rw [h1, h2]
  · intro salt inp b h
    simp [derivedSetpoint, h]

theorem C3_stable_targets_witness :
    (SETPOINT_MIN ≤ makeStableSetpoint (strCodes "brew") (strCodes "F1") (strCodes "2025-01-01") ∧
      makeStableSetpoint (strCodes "brew") (strCodes "F1") (strCodes "2025-01-01") ≤ SETPOINT_MAX) ∧
    derivedSetpoint (strCodes "brew")
      { id := strCodes "F1", startStr := [], endStr := [], startMs := none,
        endMs := none, tempVal := some 25 } = jsClamp 25 SETPOINT_MIN SETPOINT_MAX :=
  ⟨C3_stable_targets.1 _ _ _,
    C3_stable_targets.2.2.2.2 _
      { id := strCodes "F1", startStr := [], endStr := [], startMs := none,
        endMs := none, tempVal := some 25 } 25 rfl⟩

/-- C7: the sanitizer never throws (it is a total function); non-object
input yields an empty mapping; every key not matching the tank pattern is
dropped; every accepted key is uppercased and its row normalized; at most
300 entries are accepted, in the input's iteration order with the remainder
discarded. -/
theorem C7_sanitizer :
    (sanitizeState .nullV = [] ∧ sanitizeState .undefinedV = [] ∧
      (∀ b, sanitizeState (.boolV b) = []) ∧ (∀ q, sanitizeState (.numV q) = []) ∧
      (∀ s, sanitizeState (.strV s) = []) ∧ (∀ l, sanitizeState (.arrV l) = [])) ∧
    (∀ v, (sanitizeState v).length ≤ MAX_TANKS) ∧
    (∀ v p, p ∈ sanitizeState v → matchesTankId p.1 = true ∧ toUpperAscii p.1 = p.1) ∧
    (∀ l p, p ∈ sanitizeState (.objV l) →
        ∃ q ∈ l, toUpperAscii q.1 = p.1 ∧ p.2 = normalizeRow q.2) ∧
    (∀ l, (∀ p ∈ l, matchesTankId p.1 = true ∧ toUpperAscii p.1 = p.1) →
        ((l.map Prod.fst).Nodup) →
        sanitizeState (.objV l) = (l.take MAX_TANKS).map fun p => (p.1, normalizeRow p.2)) := by
  refine ⟨⟨rfl, rfl, ?_, ?_, ?_, ?_⟩, ?_, ?_, ?_, ?_⟩
  · intro b; cases b <;> rfl
  · intro q
    simp [sanitizeState, isObjectType, entriesOf, sanitizeGo]
  · intro s
    simp [sanitizeState, isObjectType, entriesOf, sanitizeGo]
  · intro l
    unfold sanitizeState
    simp only [truthy, isObjectType, Bool.and_self, if_pos]
    apply sanitizeGo_skip_all
    intro p hp
    simp only [entriesOf, List.mem_map] at hp
    obtain ⟨q, _, rfl⟩ := hp
    exact matches_natCodes_false q.1
  · intro v
    unfold sanitizeState
    calc (sanitizeGo _ [] 0).length ≤ ([] : List (List ℕ × Row)).length + (MAX_TANKS - 0) :=
          sanitizeGo_length _ [] 0
      _ ≤ MAX_TANKS := by simp
  · intro v p hp
    refine @sanitizeGo_forall
      (fun p => matchesTankId p.1 = true ∧ toUpperAscii p.1 = p.1)
      _ [] 0 (by simp) ?_ p hp
    intro q _ hq
    exact matches_toUpper q.1 hq
  · intro l p hp
    unfold sanitizeState at hp
    simp only [truthy, isObjectType, Bool.and_self, if_pos] at hp
    refine @sanitizeGo_forall
      (fun p => ∃ q ∈ l, toUpperAscii q.1 = p.1 ∧ p.2 = normalizeRow q.2)
      _ [] 0 (by simp) ?_ p hp
    intro q hq hmq
    exact ⟨q, by simpa [entriesOf] using hq, rfl, rfl⟩
  · intro l hl hnd
    unfold sanitizeState
    simp only [truthy, isObjectType, Bool.and_self, if_pos]
    have := sanitizeGo_order (entriesOf (.objV l)) [] 0 (by norm_num [MAX_TANKS])
      (by simpa [entriesOf] using hl) (by simpa [entriesOf] using hnd) (by simp)
    simpa [entriesOf] using this

theorem C7_sanitizer_witness :
    sanitizeState (.objV [(strCodes "F1", .nullV)]) =
      (([(strCodes "F1", JsValue.nullV)].take MAX_TANKS).map fun p => (p.1, normalizeRow p.2)) :=
  C7_sanitizer.2.2.2.2 [(strCodes "F1", .nullV)] (by decide) (by decide)

/-- C9: the public read returns a well-formed ok-true response for every
persisted value at the record key (absent, non-JSON, or arbitrary), with an
empty item list on the degenerate cases; per-tank computation is total (one
item per visible tank, so no tank aborts the listing); and a tank whose end
date does not parse degrades to the fermenting status with the constant
setpoint temperature and an untouched state. -/
theorem C9_resilient_read :
    (∀ o salt now ts, publicHandler o salt now none ts = ({ ok := true, items := [] }, ts)) ∧
    (∀ o salt now ts, publicHandler o salt now (some none) ts = ({ ok := true, items := [] }, ts)) ∧
    (∀ o salt now raw ts, (publicHandler o salt now raw ts).1.ok = true) ∧
    (∀ o salt now l ts, ((buildItems o salt now l ts).1).length = l.length) ∧
    (∀ salt (inp : TankInput) st0 now target, inp.endMs = none →
        computeTempForTank salt inp st0 now target =
          (⟨round1 (derivedSetpoint salt inp), .fermenting, .fermentingCN⟩, st0)) := by
  refine ⟨fun _ _ _ _ => rfl, fun _ _ _ _ => rfl, ?_, buildItems_length, compute_endNone⟩
  intro o salt now raw ts
  rcases raw with _ | _ <;> rfl

theorem C9_resilient_read_witness :
    publicHandler ⟨fun _ => none, fun _ => none, fun _ => 0⟩ [] 0 none (fun _ => none) =
        ({ ok := true, items := [] }, fun _ => none) ∧
      computeTempForTank []
        { id := strCodes "F1", startStr := [], endStr := strCodes "not-a-date",
          startMs := none, endMs := none, tempVal := none } none 0 0 =
        (⟨round1 (derivedSetpoint []
          { id := strCodes "F1", startStr := [], endStr := strCodes "not-a-date",
            startMs := none, endMs := none, tempVal := none }), .fermenting, .fermentingCN⟩,
          none) :=
  ⟨C9_resilient_read.1 _ _ _ _, C9_resilient_read.2.2.2.2 _ _ _ _ _ rfl⟩

/-- C10: for a tank in the cooling window whose persisted state is absent
(or malformed, which the code treats identically), the first read
initializes current to the setpoint and displays the setpoint - independent
of the eased-curve target and of how far the window has progressed. -/
theorem C10_init_setpoint (salt : List ℕ) (inp : TankInput) (now : ℤ)
    (target : ℚ) (e : ℤ) (hend : inp.endMs = some e)
    (hcool : coolStartOf inp.startMs e ≤ now) :
    (computeTempForTank salt inp none now target).1.display =
        round1 (derivedSetpoint salt inp) ∧
      (computeTempForTank salt inp none now target).2 =
        some ⟨derivedSetpoint salt inp, makeStableFinal salt inp.id inp.endStr,
          derivedSetpoint salt inp, Int.fdiv now TEMP_BUCKET_MS⟩ := by
  rw [compute_init salt inp now target e hend hcool]
  exact ⟨rfl, rfl⟩

theorem C10_init_setpoint_witness :
    (computeTempForTank (strCodes "brew")
        { id := strCodes "F1", startStr := [], endStr := strCodes "2025-01-10",
          startMs := none, endMs := some 924060000, tempVal := some 19 }
        none 924000000 0).1.display =
      round1 (derivedSetpoint (strCodes "brew")
        { id := strCodes "F1", startStr := [], endStr := strCodes "2025-01-10",
          startMs := none, endMs := some 924060000, tempVal := some 19 }) ∧
    (computeTempForTank (strCodes "brew")
        { id := strCodes "F1", startStr := [], endStr := strCodes "2025-01-10",
          startMs := none, endMs := some 924060000, tempVal := some 19 }
        none 924000000 0).2 =
      some ⟨derivedSetpoint (strCodes "brew")
          { id := strCodes "F1", startStr := [], endStr := strCodes "2025-01-10",
            startMs := none, endMs := some 924060000, tempVal := some 19 },
        makeStableFinal (strCodes "brew") (strCodes "F1") (strCodes "2025-01-10"),
        derivedSetpoint (strCodes "brew")
          { id := strCodes "F1", startStr := [], endStr := strCodes "2025-01-10",
            startMs := none, endMs := some 924060000, tempVal := some 19 },
        Int.fdiv 924000000 TEMP_BUCKET_MS⟩ :=
  C10_init_setpoint (strCodes "brew") _ 924000000 0 924060000 rfl (by decide)

/-- The default DISPLAY_SALT of src/api/public.js. -/
def saltBrew : List ℕ := strCodes "brew"

/-- Concrete tank for the C1 instance: manual temperature 19, end at
924060000 ms, no valid start, so the cooldown window starts at 60060000. -/
def c1Inp : TankInput :=
  { id := strCodes "F1", startStr := [], endStr := strCodes "2025-01-10",
    startMs := none, endMs := some 924060000, tempVal := some 19 }

/-- Concrete persisted state for the C1 instance: current exactly at the
setpoint, previous bucket 1000. -/
def c1St : TempState := ⟨19, 43/10, 19, 1000⟩

set_option maxRecDepth 4000 in
/-- C1 (counterexample): at the very start of the cooldown window (a cooling
phase instant, one bucket transition), with current equal to the setpoint,
the engine draws the +0.1 rebound step and persists 19.1 - above the
setpoint 19, so the updated current does NOT lie within
[finalTemp, setpoint].  The rational target 19 passed to the embedded
update is exactly the real-valued eased target at this instant. -/
theorem C1_counterexample :
    (coolStartOf c1Inp.startMs 924060000 ≤ 60060000 ∧ (60060000:ℤ) ≤ 924060000) ∧
    c1St.lastBucket ≠ Int.fdiv 60060000 TEMP_BUCKET_MS ∧
    ((19 : ℚ) : ℝ) = targetReal 19 (43/10)
        (t01Of 60060000 (coolStartOf c1Inp.startMs 924060000) 924060000) ∧
    derivedSetpoint saltBrew c1Inp = 19 ∧
    makeStableFinal saltBrew c1Inp.id c1Inp.endStr = 43/10 ∧
    (computeTempForTank saltBrew c1Inp (some c1St) 60060000 19).2 =
      some ⟨19, 43/10, 191/10, 1001⟩ ∧
    ¬ ((191:ℚ)/10 ≤ 19) := by
  refine ⟨⟨by decide, by decide⟩, by decide, ?_, by decide, by decide, by decide, by norm_num⟩
  have ht : t01Of 60060000 (coolStartOf c1Inp.startMs 924060000) 924060000 = 0 := by decide
  rw [ht, targetReal_zero]

/-- C1 (amended): on a bucket transition strictly inside the cooling window,
when the persisted current is within the display bounds [4.0, 19.9] and
within 0.4 of the (in-bounds) eased target, the engine changes current by at
most 0.3 downward and 0.1 upward and the updated current lies within the
display bounds and within [target - 0.3, target + 0.1] - a band around the
eased target rather than [finalTemp, setpoint]. -/
theorem C1_bounded_step (salt : List ℕ) (inp : TankInput) (st : TempState)
    (now e : ℤ) (target : ℚ)
    (hend : inp.endMs = some e)
    (hcs : coolStartOf inp.startMs e ≤ now)
    (hlt : now < e)
    (hbk : st.lastBucket ≠ Int.fdiv now TEMP_BUCKET_MS)
    (hp1 : FINAL_MIN ≤ st.cur) (hp2 : st.cur ≤ SETPOINT_MAX)
    (ht1 : FINAL_MIN ≤ target) (ht2 : target ≤ SETPOINT_MAX)
    (hc1 : target - 2/5 ≤ st.cur) (hc2 : st.cur ≤ target + 2/5) :
    ∃ c : ℚ,
      (computeTempForTank salt inp (some st) now target).2 =
        some ⟨derivedSetpoint salt inp, makeStableFinal salt inp.id inp.endStr, c,
          Int.fdiv now TEMP_BUCKET_MS⟩ ∧
      st.cur - 3/10 ≤ c ∧ c ≤ st.cur + 1/10 ∧
      FINAL_MIN ≤ c ∧ c ≤ SETPOINT_MAX ∧
      target - 3/10 ≤ c ∧ c ≤ target + 1/10 := by
  rw [compute_newBucket salt inp st now target e hend hcs hbk]
  rw [decide_eq_false (not_le.mpr hlt)]
  obtain ⟨b1, b2, b3, b4, b5, b6⟩ := coolUpdate_bounds salt inp.id
    (Int.fdiv now TEMP_BUCKET_MS) st.cur target
    (makeStableFinal salt inp.id inp.endStr) hp1 hp2 ht1 ht2 hc1 hc2
  exact ⟨_, rfl, b1, b2, b3, b4, b5, b6⟩

set_option maxRecDepth 4000 in
theorem C1_bounded_step_witness :
    ∃ c : ℚ,
      (computeTempForTank saltBrew c1Inp (some c1St) 60060000 19).2 =
        some ⟨derivedSetpoint saltBrew c1Inp,
          makeStableFinal saltBrew c1Inp.id c1Inp.endStr, c,
          Int.fdiv 60060000 TEMP_BUCKET_MS⟩ ∧
      c1St.cur - 3/10 ≤ c ∧ c ≤ c1St.cur + 1/10 ∧
      FINAL_MIN ≤ c ∧ c ≤ SETPOINT_MAX ∧
      (19:ℚ) - 3/10 ≤ c ∧ c ≤ (19:ℚ) + 1/10 :=
  C1_bounded_step saltBrew c1Inp c1St 60060000 924060000 19 rfl (by decide)
    (by decide) (by decide) (by decide) (by decide) (by decide) (by decide)
    (by decide) (by decide)

/-- Concrete tank for the C2 instance: end at 120000000 ms is long past at
now = 120510000. -/
def c2Inp : TankInput :=
  { id := strCodes "F1", startStr := [], endStr := strCodes "2025-01-10",
    startMs := none, endMs := some 120000000, tempVal := some 19 }

/-- Concrete persisted state for the C2 instance: current 4.1 is already
below finalTemp 4.3, previous bucket 2007. -/
def c2St : TempState := ⟨19, 43/10, 41/10, 2007⟩

set_option maxRecDepth 4000 in
/-- C2 (counterexample): past the end timestamp, with persisted current 4.1
already below finalTemp 4.3, a bucket transition draws the +0.1 rebound step
and persists 4.2: the current value INCREASES on a subsequent read even
though it was at or below finalTemp, and it does not converge to exactly
finalTemp.  The rational target 4.3 is exactly the real eased target there
(t01 ≥ 1). -/
theorem C2_counterexample :
    ((120000000:ℤ) < 120510000) ∧
    makeStableFinal saltBrew c2Inp.id c2Inp.endStr = 43/10 ∧
    ((43/10 : ℚ) : ℝ) = targetReal 19 (43/10)
        (t01Of 120510000 (coolStartOf c2Inp.startMs 120000000) 120000000) ∧
    c2St.cur ≤ 43/10 ∧
    (computeTempForTank saltBrew c2Inp (some c2St) 120510000 (43/10)).2 =
      some ⟨19, 43/10, 21/5, 2008⟩ ∧
    c2St.cur < 21/5 ∧ (21/5 : ℚ) ≠ 43/10 := by
  refine ⟨by decide, by decide, ?_, by decide, by decide, by decide, by norm_num⟩
  have ht : (1:ℚ) ≤ t01Of 120510000 (coolStartOf c2Inp.startMs 120000000) 120000000 := by
    decide
  rw [targetReal_of_one_le 19 (43/10) ht]

/-- C2 (amended): for a tank past its end timestamp and inside the cooldown
window, every read with an existing persisted state leaves the current value
at or below finalTemp (the first such read clamps it down); current never
exceeds finalTemp on any subsequent read, but it may keep moving among
values at or below finalTemp instead of converging to finalTemp exactly. -/
theorem C2_terminal_cap (salt : List ℕ) (inp : TankInput) (st : TempState)
    (now e : ℤ) (target : ℚ)
    (hend : inp.endMs = some e) (hpast : e < now)
    (hcs : coolStartOf inp.startMs e ≤ now) :
    ∃ st2, (computeTempForTank salt inp (some st) now target).2 = some st2 ∧
      st2.cur ≤ makeStableFinal salt inp.id inp.endStr := by
  by_cases hbk : st.lastBucket = Int.fdiv now TEMP_BUCKET_MS
  · rw [compute_sameBucket_past salt inp st now target e hend hcs hbk (le_of_lt hpast)]
    exact ⟨_, rfl, min_le_right _ _⟩
  · rw [compute_newBucket salt inp st now target e hend hcs hbk]
    rw [decide_eq_true (le_of_lt hpast)]
    exact ⟨_, rfl, coolUpdate_pastEnd_le _ _ _ _ _ _⟩

set_option maxRecDepth 4000 in
theorem C2_terminal_cap_witness :
    ∃ st2, (computeTempForTank saltBrew c2Inp (some c2St) 120510000 (43/10)).2 = some st2 ∧
      st2.cur ≤ makeStableFinal saltBrew c2Inp.id c2Inp.endStr :=
  C2_terminal_cap saltBrew c2Inp c2St 120510000 120000000 (43/10) rfl (by decide) (by decide)

/-- Concrete tank for the C4 instance: valid start 0 and end 1000000000,
read at now = 136000000, which is inside the cooldown window
[coolStart, end] = [136000000, 1000000000]. -/
def c4Inp : TankInput :=
  { id := strCodes "F1", startStr := strCodes "2024-12-27",
    endStr := strCodes "2025-01-10", startMs := some 0,
    endMs := some 1000000000, tempVal := some 19 }

/-- C4 (counterexample): at a time inside the cooldown window the spec
algorithm resolves the phase to cooling, but the public endpoint outputs
ready (it has no cooling output and ignores record.status), and the admin
load endpoint outputs fermenting (its auto rule uses end/progress ≥ 95, not
the cooldown window); an explicit "cooling" status is not returned verbatim
by either endpoint. -/
theorem C4_counterexample :
    specPhase none (some 0) (some 1000000000) 136000000 = .cooling ∧
    (computeTempForTank saltBrew c4Inp none 136000000 19).1.status = .ready ∧
    loadStatus (strCodes "auto") (some 0) (some 1000000000) 136000000 = .fermenting ∧
    loadStatus (strCodes "cooling") (some 0) (some 1000000000) 136000000 = .fermenting ∧
    ((19 : ℚ) : ℝ) = targetReal 19 (makeStableFinal saltBrew c4Inp.id c4Inp.endStr)
      (t01Of 136000000 (coolStartOf c4Inp.startMs 1000000000) 1000000000) := by
  refine ⟨by decide, by decide, by decide, by decide, ?_⟩
  have ht : t01Of 136000000 (coolStartOf c4Inp.startMs 1000000000) 1000000000 = 0 := by
    decide
  rw [ht, targetReal_zero]

/-- C4 (amended): the public endpoint ignores record.status entirely: an
unparseable end yields fermenting, and otherwise the status is ready exactly
when now has reached the cooldown start (cooling window included), else
fermenting.  The admin load endpoint returns an explicit fermenting/ready
verbatim (but not cooling), and otherwise returns ready exactly when the end
has passed or progress reached 95.  Neither endpoint ever resolves a
"cooling" phase. -/
theorem C4_phase_characterization :
    (∀ salt (inp : TankInput) st0 now target, inp.endMs = none →
        (computeTempForTank salt inp st0 now target).1.status = .fermenting) ∧
    (∀ salt (inp : TankInput) st0 now target e, inp.endMs = some e →
        ((computeTempForTank salt inp st0 now target).1.status = .ready ↔
          coolStartOf inp.startMs e ≤ now)) ∧
    (∀ sc sMs eMs now, toLowerAscii sc = strCodes "fermenting" →
        loadStatus sc sMs eMs now = .fermenting) ∧
    (∀ sc sMs eMs now, toLowerAscii sc = strCodes "ready" →
        loadStatus sc sMs eMs now = .ready) ∧
    (∀ sc sMs eMs now, toLowerAscii sc ≠ strCodes "fermenting" →
        toLowerAscii sc ≠ strCodes "ready" →
        (loadStatus sc sMs eMs now = .ready ↔
          (∃ e, eMs = some e ∧ e ≤ now) ∨
            READY_THRESHOLD ≤ calcProgress sMs eMs now)) := by
  refine ⟨?_, ?_, ?_, ?_, ?_⟩
  · intro salt inp st0 now target hend
    rw [compute_endNone salt inp st0 now target hend]
  · intro salt inp st0 now target e hend
    by_cases hcs : coolStartOf inp.startMs e ≤ now
    · rcases st0 with _ | st
      · rw [compute_init salt inp now target e hend hcs]
        simpa using hcs
      · by_cases hbk : st.lastBucket = Int.fdiv now TEMP_BUCKET_MS
        · by_cases hpe : e ≤ now
          · rw [compute_sameBucket_past salt inp st now target e hend hcs hbk hpe]
            simpa using hcs
          · rw [compute_sameBucket_pre salt inp st now target e hend hcs hbk hpe]
            simpa using hcs
        · rw [compute_newBucket salt inp st now target e hend hcs hbk]
          simpa using hcs
    · rw [compute_notCooling salt inp st0 now target e hend (not_le.mp hcs)]
      simp only [iff_false]
      constructor
      · intro h
        exact absurd h (by simp)
      · intro h
        exact absurd h hcs
  · intro sc sMs eMs now h
    unfold loadStatus
    rw [if_pos h]
  · intro sc sMs eMs now h
    unfold loadStatus
    rw [if_neg (by rw [h]; decide), if_pos h]
  · intro sc sMs eMs now h1 h2
    unfold loadStatus
    rw [if_neg h1, if_neg h2]
    have hexp : ((match eMs with | some e => decide (e ≤ now) | none => false) = true) ↔
        (∃ e, eMs = some e ∧ e ≤ now) := by
      cases eMs <;> simp
    dsimp only
    split_ifs with hc
    · simp only [true_iff]
      · exact Or.imp hexp.mp id hc
    · constructor
      · intro hx
        exact absurd hx (by simp)
      · intro hx
        exact absurd (Or.imp hexp.mpr id hx) hc

theorem C4_phase_characterization_witness :
    ((computeTempForTank saltBrew c4Inp none 136000000 19).1.status = .ready ↔
      coolStartOf c4Inp.startMs 1000000000 ≤ 136000000) ∧
    loadStatus (strCodes "READY") (some 0) (some 1000000000) 136000000 = .ready :=
  ⟨C4_phase_characterization.2.1 saltBrew c4Inp none 136000000 19 1000000000 rfl,
    C4_phase_characterization.2.2.2.1 (strCodes "READY") (some 0) (some 1000000000)
      136000000 (by decide)⟩

/-- Concrete tank for the C5 instance: start equals end (1 8 0 0 3 0 0 0 0
ms), so the cooldown start clamps to the end timestamp itself. -/
def c5Inp : TankInput :=
  { id := strCodes "F1", startStr := strCodes "2025-01-01",
    endStr := strCodes "2025-01-10", startMs := some 180030000,
    endMs := some 180030000, tempVal := some 19 }

/-- Concrete persisted state for the C5 instance: current at the setpoint,
last updated in bucket 3000. -/
def c5St : TempState := ⟨19, 43/10, 19, 3000⟩

set_option maxRecDepth 4000 in
/-- C5 (counterexample): two reads one millisecond apart fall in the same
60-second bucket (bucket 3000) with no intervening write - the first read,
one millisecond before the end timestamp, is on the fermenting side and
writes nothing - yet the displayed temperatures differ (19.0 vs 4.3) and
the second read rewrites the persisted current from 19 to 4.3, because the
bucket straddles the end timestamp and the past-end clamp fires inside the
same bucket. -/
theorem C5_counterexample :
    Int.fdiv 180029999 TEMP_BUCKET_MS = Int.fdiv 180030000 TEMP_BUCKET_MS ∧
    computeTempForTank saltBrew c5Inp (some c5St) 180029999 19 =
      (⟨round1 19, .fermenting, .fermentingCN⟩, some c5St) ∧
    (computeTempForTank saltBrew c5Inp (some c5St) 180030000 19).1.display = 43/10 ∧
    (computeTempForTank saltBrew c5Inp (some c5St) 180030000 19).2 =
      some ⟨19, 43/10, 43/10, 3000⟩ ∧
    round1 19 ≠ (43/10 : ℚ) ∧ c5St.cur ≠ (43/10 : ℚ) ∧
    ((19 : ℚ) : ℝ) = targetReal 19 (makeStableFinal saltBrew c5Inp.id c5Inp.endStr)
      (t01Of 180030000 (coolStartOf c5Inp.startMs 180030000) 180030000) := by
  refine ⟨by decide, by decide, by decide, by decide, by decide, by decide, ?_⟩
  have ht : t01Of 180030000 (coolStartOf c5Inp.startMs 180030000) 180030000 = 0 := by
    decide
  rw [ht, targetReal_zero]

/-- C5 (amended): two sequential reads in the same time bucket that fall on
the same side of the cooldown start and on the same side of the end
timestamp (and, if the state is absent, do not both lie past the end) return
the same displayed temperature, and the second read leaves the persisted
state exactly as the first read left it. -/
theorem C5_bucket_idempotent (salt : List ℕ) (inp : TankInput)
    (st0 : Option TempState) (t1 t2 e : ℤ) (tg1 tg2 : ℚ)
    (hend : inp.endMs = some e)
    (hbk : Int.fdiv t1 TEMP_BUCKET_MS = Int.fdiv t2 TEMP_BUCKET_MS)
    (hcs : coolStartOf inp.startMs e ≤ t1 ↔ coolStartOf inp.startMs e ≤ t2)
    (hpe : e ≤ t1 ↔ e ≤ t2)
    (hinit : st0 = none → ¬ e ≤ t1) :
    (computeTempForTank salt inp
        ((computeTempForTank salt inp st0 t1 tg1).2) t2 tg2).1.display =
      (computeTempForTank salt inp st0 t1 tg1).1.display ∧
    (computeTempForTank salt inp
        ((computeTempForTank salt inp st0 t1 tg1).2) t2 tg2).2 =
      (computeTempForTank salt inp st0 t1 tg1).2 := by
  by_cases hc1 : coolStartOf inp.startMs e ≤ t1
  · have hc2 : coolStartOf inp.startMs e ≤ t2 := hcs.mp hc1
    rcases st0 with _ | st
    · have hpe1 : ¬ e ≤ t1 := hinit rfl
      have hpe2 : ¬ e ≤ t2 := fun h => hpe1 (hpe.mpr h)
      rw [compute_init salt inp t1 tg1 e hend hc1]
      rw [compute_sameBucket_pre salt inp
        ⟨derivedSetpoint salt inp, makeStableFinal salt inp.id inp.endStr,
          derivedSetpoint salt inp, Int.fdiv t1 TEMP_BUCKET_MS⟩ t2 tg2 e hend hc2 hbk hpe2]
      exact ⟨rfl, rfl⟩
    · by_cases hb1 : st.lastBucket = Int.fdiv t1 TEMP_BUCKET_MS
      · by_cases hp1 : e ≤ t1
        · rw [compute_sameBucket_past salt inp st t1 tg1 e hend hc1 hb1 hp1]
          rw [compute_sameBucket_past salt inp
            ⟨derivedSetpoint salt inp, makeStableFinal salt inp.id inp.endStr,
              min st.cur (makeStableFinal salt inp.id inp.endStr), st.lastBucket⟩
            t2 tg2 e hend hc2 (hb1.trans hbk) (hpe.mp hp1)]
          rw [min_assoc, min_self]
          exact ⟨rfl, rfl⟩
        · rw [compute_sameBucket_pre salt inp st t1 tg1 e hend hc1 hb1 hp1]
          rw [compute_sameBucket_pre salt inp st t2 tg2 e hend hc2 (hb1.trans hbk)
            (fun h => hp1 (hpe.mpr h))]
          exact ⟨rfl, rfl⟩
      · rw [compute_newBucket salt inp st t1 tg1 e hend hc1 hb1]
        by_cases hp1 : e ≤ t1
        · rw [compute_sameBucket_past salt inp
            ⟨derivedSetpoint salt inp, makeStableFinal salt inp.id inp.endStr,
              coolUpdate salt inp.id (Int.fdiv t1 TEMP_BUCKET_MS) st.cur tg1
                (makeStableFinal salt inp.id inp.endStr) (decide (e ≤ t1)),
              Int.fdiv t1 TEMP_BUCKET_MS⟩ t2 tg2 e hend hc2 hbk (hpe.mp hp1)]
          have hle : coolUpdate salt inp.id (Int.fdiv t1 TEMP_BUCKET_MS) st.cur tg1
              (makeStableFinal salt inp.id inp.endStr) (decide (e ≤ t1)) ≤
              makeStableFinal salt inp.id inp.endStr := by
            rw [decide_eq_true hp1]
            exact coolUpdate_pastEnd_le _ _ _ _ _ _
          rw [min_eq_left hle]
          exact ⟨rfl, rfl⟩
        · rw [compute_sameBucket_pre salt inp
            ⟨derivedSetpoint salt inp, makeStableFinal salt inp.id inp.endStr,
              coolUpdate salt inp.id (Int.fdiv t1 TEMP_BUCKET_MS) st.cur tg1
                (makeStableFinal salt inp.id inp.endStr) (decide (e ≤ t1)),
              Int.fdiv t1 TEMP_BUCKET_MS⟩ t2 tg2 e hend hc2 hbk
            (fun h => hp1 (hpe.mpr h))]
          exact ⟨rfl, rfl⟩
  · have hc2 : ¬ coolStartOf inp.startMs e ≤ t2 := fun h => hc1 (hcs.mpr h)
    rw [compute_notCooling salt inp st0 t1 tg1 e hend (not_le.mp hc1)]
    rw [compute_notCooling salt inp st0 t2 tg2 e hend (not_le.mp hc2)]
    exact ⟨rfl, rfl⟩

theorem C5_bucket_idempotent_witness :
    (computeTempForTank saltBrew c5Inp
        ((computeTempForTank saltBrew c5Inp (some c5St) 180029000 19).2) 180029999 19).1.display =
      (computeTempForTank saltBrew c5Inp (some c5St) 180029000 19).1.display ∧
    (computeTempForTank saltBrew c5Inp
        ((computeTempForTank saltBrew c5Inp (some c5St) 180029000 19).2) 180029999 19).2 =
      (computeTempForTank saltBrew c5Inp (some c5St) 180029000 19).2 :=
  C5_bucket_idempotent saltBrew c5Inp (some c5St) 180029000 180029999 180030000 19 19
    rfl (by decide) (by decide) (by decide) (fun h => Option.noConfusion h)

/-- Concrete tank for the C6 instance: the operator has set a manual
temperature of 19; the persisted state still carries setpoint 18.5. -/
def c6Inp : TankInput :=
  { id := strCodes "F1", startStr := [], endStr := strCodes "2025-01-10",
    startMs := none, endMs := some 1164000000, tempVal := some 19 }

/-- Concrete persisted state for the C6 instance: last-seen setpoint 18.5
(differing from the new manual 19), current 18.5, last update in the
current bucket 5000. -/
def c6St : TempState := ⟨185/10, 45/10, 185/10, 5000⟩

set_option maxRecDepth 4000 in
/-- C6 (counterexample): the manual setpoint changed (the state's last-seen
setpoint is 18.5 while the newly derived setpoint is 19), yet the next read
neither resets the persisted current to the new setpoint nor even persists
the re-derived values: on the same-bucket pre-end path the store is left
completely unchanged and the displayed value is the old 18.5 trajectory. -/
theorem C6_counterexample :
    derivedSetpoint saltBrew c6Inp = 19 ∧
    c6St.setpoint ≠ derivedSetpoint saltBrew c6Inp ∧
    (computeTempForTank saltBrew c6Inp (some c6St) 300000000 19).2 = some c6St ∧
    c6St.cur ≠ derivedSetpoint saltBrew c6Inp ∧
    (computeTempForTank saltBrew c6Inp (some c6St) 300000000 19).1.display =
      round1 (185/10) ∧
    ((19 : ℚ) : ℝ) = targetReal 19 (makeStableFinal saltBrew c6Inp.id c6Inp.endStr)
      (t01Of 300000000 (coolStartOf c6Inp.startMs 1164000000) 1164000000) := by
  refine ⟨by decide, by decide, by decide, by decide, by decide, ?_⟩
  have ht : t01Of 300000000 (coolStartOf c6Inp.startMs 1164000000) 1164000000 = 0 := by
    decide
  rw [ht, targetReal_zero]

/-- C6 (amended): each read re-derives setpoint and finalTemp from the
current record and uses them for its computation; paths that write state
persist the re-derived values, but the persisted current is never reset to
the new setpoint: on a same-bucket pre-end read the store is left entirely
unchanged (old setpoint, finalTemp and current included), and on a bucket
transition the new current continues from the old current (dropping at most
0.3 from it) instead of restarting at the new setpoint. -/
theorem C6_no_reset (salt : List ℕ) (inp : TankInput) (st : TempState)
    (now e : ℤ) (target : ℚ)
    (hend : inp.endMs = some e)
    (hcs : coolStartOf inp.startMs e ≤ now) :
    (st.lastBucket = Int.fdiv now TEMP_BUCKET_MS → ¬ e ≤ now →
      (computeTempForTank salt inp (some st) now target).2 = some st ∧
      (computeTempForTank salt inp (some st) now target).1.display = round1 st.cur) ∧
    (st.lastBucket ≠ Int.fdiv now TEMP_BUCKET_MS →
      ∃ c, (computeTempForTank salt inp (some st) now target).2 =
          some ⟨derivedSetpoint salt inp, makeStableFinal salt inp.id inp.endStr, c,
            Int.fdiv now TEMP_BUCKET_MS⟩ ∧
        (¬ e ≤ now → st.cur ≤ SETPOINT_MAX → st.cur - 3/10 ≤ c)) ∧
    (st.lastBucket = Int.fdiv now TEMP_BUCKET_MS → e ≤ now →
      (computeTempForTank salt inp (some st) now target).2 =
        some ⟨derivedSetpoint salt inp, makeStableFinal salt inp.id inp.endStr,
          min st.cur (makeStableFinal salt inp.id inp.endStr), st.lastBucket⟩) := by
  refine ⟨?_, ?_, ?_⟩
  · intro hbk hpe
    rw [compute_sameBucket_pre salt inp st now target e hend hcs hbk hpe]
    exact ⟨rfl, rfl⟩
  · intro hbk
    rw [compute_newBucket salt inp st now target e hend hcs hbk]
    refine ⟨_, rfl, ?_⟩
    intro hpe hmax
    rw [decide_eq_false hpe]
    exact coolUpdate_lower salt inp.id (Int.fdiv now TEMP_BUCKET_MS) st.cur target
      (makeStableFinal salt inp.id inp.endStr) hmax
  · intro hbk hpe
    rw [compute_sameBucket_past salt inp st now target e hend hcs hbk hpe]

theorem C6_no_reset_witness :
    (computeTempForTank saltBrew c6Inp (some c6St) 300000000 19).2 = some c6St ∧
    (computeTempForTank saltBrew c6Inp (some c6St) 300000000 19).1.display =
      round1 c6St.cur :=
  (C6_no_reset saltBrew c6Inp c6St 300000000 1164000000 19 rfl (by decide)).1
    (by decide) (by decide)

/-- Payload for the C8 instance: a key "XX" that does not match the tank
pattern, plus a record for F1 carrying a manual temperature of 19. -/
def c8Payload : JsValue :=
  .objV [(strCodes "XX", .nullV),
    (strCodes "F1", .objV [(strCodes "temp", .strV (strCodes "19"))])]

/-- Store before the C8 write: some previous record set, and a temperature
state for F1 whose current value is 10. -/
def c8Store : Store :=
  { records := some (.objV []),
    temps := fun k => if k = strCodes "F1" then some ⟨185/10, 45/10, 10, 0⟩ else none }

/-- The top-level keys of a stored record object. -/
def keysOf : JsValue → List (List ℕ)
  | .objV l => l.map Prod.fst
  | _ => []

/-- C8 (counterexample): the authorized write stores the payload verbatim -
the non-matching key "XX" is retained at the record key (no pattern filter
or cap is applied by the write; sanitization happens on read) - and the
per-tank temperature state is left untouched: F1's persisted current stays
10, not the manual setpoint 19 the payload carries. -/
theorem C8_counterexample :
    (saveApply c8Payload c8Store).records = some c8Payload ∧
    strCodes "XX" ∈ keysOf ((saveApply c8Payload c8Store).records.getD .nullV) ∧
    matchesTankId (strCodes "XX") = false ∧
    (saveApply c8Payload c8Store).temps (strCodes "F1") = some ⟨185/10, 45/10, 10, 0⟩ ∧
    jsClamp 19 SETPOINT_MIN SETPOINT_MAX = 19 ∧
    ((10 : ℚ)) ≠ 19 := by
  exact ⟨rfl, by decide, by decide, by decide, by decide, by decide⟩

/-- C8 (amended): the write fully replaces the stored record set with the
raw payload (an empty object for falsy parse results) and touches nothing
else - in particular the temperature state is not reset; the tank-pattern
filter and the 300-record cap are enforced on the read path by the
sanitizer, so at most 300 pattern-matching records survive a subsequent
read of whatever the write stored. -/
theorem C8_save_replaces_raw (payload : JsValue) (s : Store) :
    (saveApply payload s).temps = s.temps ∧
    (truthy payload = true → (saveApply payload s).records = some payload) ∧
    (truthy payload = false → (saveApply payload s).records = some (.objV [])) ∧
    (sanitizeState payload).length ≤ MAX_TANKS ∧
    (∀ p ∈ sanitizeState payload, matchesTankId p.1 = true) := by
  refine ⟨rfl, ?_, ?_, ?_, ?_⟩
  · intro h
    unfold saveApply
    rw [if_pos h]
  · intro h
    unfold saveApply
    rw [if_neg (by simp [h])]
  · unfold sanitizeState
    calc (sanitizeGo _ [] 0).length ≤ ([] : List (List ℕ × Row)).length + (MAX_TANKS - 0) :=
          sanitizeGo_length _ [] 0
      _ ≤ MAX_TANKS := by simp
  · intro p hp
    refine (@sanitizeGo_forall
      (fun p => matchesTankId p.1 = true)
      _ [] 0 (by simp) ?_ p hp)
    intro q _ hq
    exact (matches_toUpper q.1 hq).1

theorem C8_save_replaces_raw_witness :
    (saveApply c8Payload c8Store).temps = c8Store.temps ∧
    (saveApply c8Payload c8Store).records = some c8Payload :=
  ⟨(C8_save_replaces_raw c8Payload c8Store).1,
    (C8_save_replaces_raw c8Payload c8Store).2.1 rfl⟩

end BrewDash
